import Mathlib

/-! # OCR Enhancer front end: a shallow embedding

The development embeds the React front end of the OCR Enhancer
(`App.jsx`, `ProcessingOptions.jsx`, `ResultsDisplay.jsx`, `services/api.js`)
as pure Lean functions over explicit state and proves properties of them.

Conventions of the embedding:
* a JavaScript string is a Lean `String` (for scanning: its list of characters; every
  character of the class `\s` is a single UTF-16 code unit, so scanning code points and
  scanning code units find the same separators);
* a value that may be `undefined`/`null` is an `Option`;
* a React state cell is a field of a structure, a state setter is a record update;
* an awaited call to the back end is an oracle whose outcome is an argument.
-/

namespace OCREnhancer

/-! ## JavaScript built-ins used by the front end -/

/-- The characters matched by the regular-expression class `\s` of ECMAScript:
the `WhiteSpace` and `LineTerminator` productions. -/
def isJsWhitespace (c : Char) : Bool :=
  let n := c.toNat
  n == 0x09 || n == 0x0A || n == 0x0B || n == 0x0C || n == 0x0D || n == 0x20 ||
  n == 0xA0 || n == 0x1680 || (0x2000 ≤ n && n ≤ 0x200A) ||
  n == 0x2028 || n == 0x2029 || n == 0x202F || n == 0x205F || n == 0x3000 || n == 0xFEFF

/-- The scanning loop of `String.prototype.split` for the separator `/\s+/`.
`cur` is the text since the end of the last separator (position `p` up to `q`, reversed),
`inSep` tells that the greedy match of `\s+` that began earlier is still consuming input,
the list argument is the input from position `q` on.  A match of `\s+` at `q` closes the
token `S[p, q)` and moves `p` and `q` to the end of the whole whitespace run; at the end
of the input the tail `S[p, size)` is pushed. -/
def splitLoop : Bool → List Char → List Char → List (List Char)
  | _, cur, [] => [cur.reverse]
  | inSep, cur, c :: cs =>
    if isJsWhitespace c then
      if inSep then splitLoop true [] cs
      else cur.reverse :: splitLoop true [] cs
    else splitLoop false (c :: cur) cs

/-- The call `s.split(/\s+/)`.  For the empty string the separator does not match the empty
string, so the result is the one-element array holding the empty string. -/
def splitWhitespace (s : List Char) : List (List Char) :=
  match s with
  | [] => [[]]
  | _ => splitLoop false [] s

/-- The word count of `ResultsDisplay.jsx` (Quick Stats):
`editableText.split(/\s+/).filter(w => w.length > 0).length`. -/
def wordCount (editableText : String) : Nat :=
  ((splitWhitespace editableText.toList).filter (fun w => decide (w.length > 0))).length

/-- The number of non-empty tokens of a token list. -/
def nonEmptyTokens (tokens : List (List Char)) : Nat :=
  (tokens.filter (fun w => decide (w.length > 0))).length

/-- The number of maximal runs of non-whitespace characters, as the specification words it:
a run starts at every non-whitespace character that is the first character of the text or
follows a whitespace character. `prev` is the character before the list (a blank stands for
the start of the text). -/
def countRunsFrom (prev : Char) (t : List Char) : Nat :=
  ((prev :: t).zip t).countP (fun pr => isJsWhitespace pr.1 && !isJsWhitespace pr.2)

/-- The number of maximal runs of non-whitespace characters of a string. -/
def countNonWhitespaceRuns (t : String) : Nat :=
  countRunsFrom ' ' t.toList

/-- The decimal digits of a natural number, most significant first. -/
def decimalDigits (s : Nat) : List Char :=
  Nat.toDigits 10 s

/-- The decimal digits of a natural number without its trailing zeros (none for zero). -/
def significantDigits (s : Nat) : List Char :=
  ((decimalDigits s).reverse.dropWhile (fun c => c == '0')).reverse

/-- The text that `Number::toString` of ECMAScript builds in radix ten from the `k` digits of
the significand and the position `n` of the decimal point: plain digits with `n - k` zeros
appended when `k ≤ n ≤ 21`, a decimal point inside the digits when `0 < n ≤ 21`, `0.` with
`-n` zeros before the digits when `-6 < n ≤ 0`, and exponent notation otherwise. -/
def formatDigits (digits : List Char) (n : Int) : List Char :=
  let k : Int := digits.length
  if -5 ≤ n ∧ n ≤ 21 then
    if k ≤ n then digits ++ List.replicate (n - k).toNat '0'
    else if 0 < n then digits.take n.toNat ++ '.' :: digits.drop n.toNat
    else '0' :: '.' :: (List.replicate (-n).toNat '0' ++ digits)
  else
    let c := if n - 1 < 0 then '-' else '+'
    let e := decimalDigits (n - 1).natAbs
    match digits with
    | [] => []
    | [d] => d :: 'e' :: c :: e
    | d :: rest => d :: '.' :: (rest ++ 'e' :: c :: e)

/-- A JavaScript number: `NaN`, an infinity, or a finite value. A finite value is given by
its sign, the decimal digits `s` that identify it and the position `n` of the decimal point,
so that its value is `0.d₁d₂…dₖ × 10ⁿ` for the digits `d₁…dₖ` of `s` (zero when `s = 0`):
these are the `s` and `n` of `Number::toString`, the shortest digits that read back as the
same number. Every number has such a representation (92.5 is `finite false 925 2`, 10²¹ is
`finite false 1 22`); digits beyond the precision or the range of the Number type (more than
17 significant ones, a magnitude above about 1.8 × 10³⁰⁸) identify no number and stand for
no value the code can meet. Comparing such a value with an integer gives the same result
as comparing the number itself, because an integer in the range of the thresholds is its own
shortest representation and rounding is monotone. -/
inductive JSNumber where
  | nan
  | infinity (negative : Bool)
  | finite (negative : Bool) (s : Nat) (n : Int)
  deriving DecidableEq, Repr

/-- The number with the value of an integer: all digits lie before the decimal point. -/
def JSNumber.int (i : Int) : JSNumber :=
  .finite (decide (i < 0)) i.natAbs (decimalDigits i.natAbs).length

/-- The value of a finite number as a rational, `none` for `NaN` and the infinities. -/
def JSNumber.toRat? : JSNumber → Option ℚ
  | .nan => none
  | .infinity _ => none
  | .finite negative s n =>
    some ((if negative then -(s : ℚ) else (s : ℚ))
      * (10 : ℚ) ^ (n - (decimalDigits s).length))

/-- Truthiness of a number (`ToBoolean`): `NaN` and zero are falsy. -/
def JSNumber.truthy : JSNumber → Bool
  | .nan => false
  | .infinity _ => true
  | .finite _ s _ => s != 0

/-- The method `Number.prototype.toString()` in radix ten (`Number::toString`). -/
def JSNumber.toJSString : JSNumber → String
  | .nan => "NaN"
  | .infinity negative => if negative then "-Infinity" else "Infinity"
  | .finite negative s n =>
    match significantDigits s with
    | [] => "0"
    | digits => String.mk ((if negative then ['-'] else []) ++ formatDigits digits n)

/-- The comparison `x >= k` of a number with an integer constant `k`: false for `NaN`, and
for a finite `x` the comparison of its value `±s × 10ᵉ` with `k`, both sides scaled by the
power of ten that clears the fraction. -/
def JSNumber.ge : JSNumber → Int → Bool
  | .nan, _ => false
  | .infinity negative, _ => !negative
  | .finite negative s n, k =>
    let signed : Int := if negative then -(s : Int) else (s : Int)
    let e : Int := n - (decimalDigits s).length
    if 0 ≤ e then decide (k ≤ signed * 10 ^ e.toNat)
    else decide (k * 10 ^ (-e).toNat ≤ signed)

/-- The method `Boolean.prototype.toString()`. -/
def boolToJSString : Bool → String
  | true => "true"
  | false => "false"

/-- Truthiness of a string that may be `undefined`: only a non-empty string is truthy. -/
def truthyString : Option String → Bool
  | some s => s != ""
  | none => false

/-- A parsed JSON value, as `response.json()` delivers it. An object lists its own
properties, each key once, in insertion order. -/
inductive Json where
  | null
  | bool (b : Bool)
  | num (n : JSNumber)
  | str (s : String)
  | arr (items : List Json)
  | obj (fields : List (String × Json))
  deriving Repr

mutual
/-- Decidable equality of parsed JSON values. -/
def Json.decEq : (a b : Json) → Decidable (a = b)
  | .null, .null => isTrue rfl
  | .bool a, .bool b =>
    if h : a = b then isTrue (by rw [h]) else isFalse (by intro e; cases e; exact h rfl)
  | .num a, .num b =>
    if h : a = b then isTrue (by rw [h]) else isFalse (by intro e; cases e; exact h rfl)
  | .str a, .str b =>
    if h : a = b then isTrue (by rw [h]) else isFalse (by intro e; cases e; exact h rfl)
  | .arr a, .arr b =>
    match Json.decEqList a b with
    | isTrue h => isTrue (by rw [h])
    | isFalse h => isFalse (by intro e; cases e; exact h rfl)
  | .obj a, .obj b =>
    match Json.decEqFields a b with
    | isTrue h => isTrue (by rw [h])
    | isFalse h => isFalse (by intro e; cases e; exact h rfl)
  | .null, .bool _ | .null, .num _ | .null, .str _ | .null, .arr _ | .null, .obj _
  | .bool _, .null | .bool _, .num _ | .bool _, .str _ | .bool _, .arr _ | .bool _, .obj _
  | .num _, .null | .num _, .bool _ | .num _, .str _ | .num _, .arr _ | .num _, .obj _
  | .str _, .null | .str _, .bool _ | .str _, .num _ | .str _, .arr _ | .str _, .obj _
  | .arr _, .null | .arr _, .bool _ | .arr _, .num _ | .arr _, .str _ | .arr _, .obj _
  | .obj _, .null | .obj _, .bool _ | .obj _, .num _ | .obj _, .str _ | .obj _, .arr _ =>
    isFalse (by intro e; cases e)
/-- Decidable equality of lists of parsed JSON values. -/
def Json.decEqList : (a b : List Json) → Decidable (a = b)
  | [], [] => isTrue rfl
  | [], _ :: _ => isFalse (by intro e; cases e)
  | _ :: _, [] => isFalse (by intro e; cases e)
  | x :: xs, y :: ys =>
    match Json.decEq x y, Json.decEqList xs ys with
    | isTrue h1, isTrue h2 => isTrue (by rw [h1, h2])
    | isFalse h1, _ => isFalse (by intro e; cases e; exact h1 rfl)
    | _, isFalse h2 => isFalse (by intro e; cases e; exact h2 rfl)
/-- Decidable equality of property lists. -/
def Json.decEqFields : (a b : List (String × Json)) → Decidable (a = b)
  | [], [] => isTrue rfl
  | [], _ :: _ => isFalse (by intro e; cases e)
  | _ :: _, [] => isFalse (by intro e; cases e)
  | (k1, x) :: xs, (k2, y) :: ys =>
    if hk : k1 = k2 then
      match Json.decEq x y, Json.decEqFields xs ys with
      | isTrue h1, isTrue h2 => isTrue (by rw [hk, h1, h2])
      | isFalse h1, _ => isFalse (by intro e; cases e; exact h1 rfl)
      | _, isFalse h2 => isFalse (by intro e; cases e; exact h2 rfl)
    else isFalse (by intro e; cases e; exact hk rfl)
end

instance : DecidableEq Json := Json.decEq

/-- Truthiness of a JSON value (`ToBoolean`). -/
def Json.truthy : Json → Bool
  | .null => false
  | .bool b => b
  | .num n => n.truthy
  | .str s => s != ""
  | .arr _ => true
  | .obj _ => true

/-- The message of the `TypeError` raised by reading the property `error` of `null` (the
wording of V8; every engine raises a `TypeError` here, with its own wording). -/
def nullPropertyMessage : String :=
  "Cannot read properties of null (reading 'error')"

/-- The message of the `TypeError` raised when an object has no callable `toString` or
`valueOf` that yields a primitive. -/
def notPrimitiveMessage : String :=
  "Cannot convert object to primitive value"

/-- The property access `errorData.error` on a parsed JSON value: a `TypeError` for `null`,
the own property of an object, and `undefined` for every other value (no prototype of a
primitive or of an array has a property `error`). -/
def Json.getError : Json → Except String (Option Json)
  | .null => .error nullPropertyMessage
  | .obj fields => .ok (fields.lookup "error")
  | _ => .ok none

mutual
/-- The conversion `ToString` of a parsed JSON value, as `new Error(value)` applies it to
build the message: an array joins its items with commas, a plain object prints as
`[object Object]` unless an own property shadows `toString`, in which case the conversion
raises a `TypeError`. -/
def Json.toJSString : Json → Except String String
  | .null => .ok "null"
  | .bool b => .ok (boolToJSString b)
  | .num n => .ok n.toJSString
  | .str s => .ok s
  | .arr items => Json.joinItems items
  | .obj fields =>
    if fields.any (fun p => p.1 == "toString") then .error notPrimitiveMessage
    else .ok "[object Object]"
/-- One item of `Array.prototype.join`: `null` prints as the empty string, every other item
by `ToString`. -/
def Json.itemString : Json → Except String String
  | .null => .ok ""
  | .bool b => .ok (boolToJSString b)
  | .num n => .ok n.toJSString
  | .str s => .ok s
  | .arr items => Json.joinItems items
  | .obj fields =>
    if fields.any (fun p => p.1 == "toString") then .error notPrimitiveMessage
    else .ok "[object Object]"
/-- The method `Array.prototype.join` with the separator `,`. -/
def Json.joinItems : List Json → Except String String
  | [] => .ok ""
  | [x] => Json.itemString x
  | x :: y :: rest =>
    match Json.itemString x, Json.joinItems (y :: rest) with
    | .ok a, .ok b => .ok (a ++ "," ++ b)
    | .error e, _ => .error e
    | _, .error e => .error e
end

/-- The message of `new Error(a || b)` for a property `a` of a response, which may be
absent or hold any JSON value, and a string `b`: the operand chosen by `||` is `a` when it is
truthy and `b` otherwise, and the constructor converts it with `ToString` (a string is its
own message, the number 42 gives '42'); when that conversion throws, the `TypeError` is what
is thrown, so its message takes the place. -/
def orElseString (a : Option Json) (b : String) : String :=
  match a with
  | some value =>
    if value.truthy then
      match value.toJSString with
      | .ok message => message
      | .error typeError => typeError
    else b
  | none => b

/-- A `File` picked by the user; the front end reads only its `name`. -/
structure JSFile where
  name : String
  content : String
  deriving DecidableEq, Repr

/-- The outcome of an awaited call: the promise resolves with a value or rejects with an
`Error` carrying a message. -/
inductive ApiOutcome (α : Type) where
  | returned (value : α)
  | threw (message : String)
  deriving DecidableEq, Repr

/-! ## Data received from the back end -/

/-- One entry of `ocr_results`, with the fields `ResultsDisplay.jsx` reads. -/
structure EngineResult where
  success : Bool
  text : Option String
  confidence : Option JSNumber
  word_count : Option Nat
  language : Option String
  error : Option String
  deriving DecidableEq, Repr

/-- The `combined_result` of a response. -/
structure CombinedResult where
  text : String
  confidence : JSNumber
  deriving DecidableEq, Repr

/-- One element of `ai_correction.changes_made`. -/
structure CorrectionChange where
  original : String
  corrected : String
  deriving DecidableEq, Repr

/-- The `ai_correction` of a response. -/
structure AiCorrection where
  success : Bool
  text : Option String
  confidence : Option JSNumber
  changes_made : Option (List CorrectionChange)
  model_used : Option String
  error : Option String
  deriving DecidableEq, Repr

/-- The `settings` echoed by a response. -/
structure Settings where
  engines : List String
  language : String
  ai_correction : Bool
  combination_method : String
  deriving DecidableEq, Repr

/-- The body of a response of `/ocr/process` (the Pipeline Response), when it is not `null`:
`success` is the truthiness of its `success` property, `error` is its `error` property, which
may be absent or hold any JSON value; a body without these properties (a number, a string,
an array) has `success` false and every other field absent. -/
structure PipelineResponse where
  success : Bool
  ocr_results : Option (List (String × EngineResult))
  combined_result : Option CombinedResult
  ai_correction : Option AiCorrection
  final_text : Option String
  settings : Option Settings
  error : Option Json
  deriving DecidableEq, Repr

/-- The body of a response of `/ocr/engines`. -/
structure EnginesResponse where
  success : Bool
  engines : List String
  ai_correction_available : Bool
  deriving DecidableEq, Repr

/-! ## `services/api.js` -/

/-- A value appended to a `FormData`: a file or a string. -/
inductive FormValue where
  | file (f : JSFile)
  | text (s : String)
  deriving DecidableEq, Repr

/-- A `FormData`: its entries in insertion order. -/
abbrev FormData := List (String × FormValue)

/-- The call `formData.append(name, value)`: the entry is added after the existing ones. -/
def FormData.append (fd : FormData) (name : String) (value : FormValue) : FormData :=
  fd ++ [(name, value)]

/-- The `options` argument of `processFile`; every field may be missing. -/
structure RequestOptions where
  engines : Option (List String)
  language : Option String
  aiCorrection : Option Bool
  combinationMethod : Option String
  context : Option String
  externalEngine : Option String
  confidence : Option JSNumber
  deriving DecidableEq, Repr

/-- The arguments with which `processFile` calls `this.request`. -/
structure ApiRequest where
  endpoint : String
  method : String
  body : FormData
  deriving DecidableEq, Repr

/-- The loop `options.engines.forEach(engine => formData.append('engines', engine))`. -/
def appendEngines (fd : FormData) : List String → FormData
  | [] => fd
  | engine :: rest => appendEngines (fd.append "engines" (.text engine)) rest

/-- The method `APIService.processFile(file, options)` of `api.js`, up to the call of
`this.request`: the form is filled statement by statement and handed over with method `POST`. -/
def processFile (file : JSFile) (options : RequestOptions) : ApiRequest :=
  let formData : FormData := []
  let formData := formData.append "file" (.file file)
  let formData :=
    match options.engines with
    | some engines => if engines.length > 0 then appendEngines formData engines else formData
    | none => formData
  let formData :=
    if truthyString options.language then
      formData.append "language" (.text (options.language.getD ""))
    else formData
  let formData :=
    match options.aiCorrection with
    | some b => formData.append "ai_correction" (.text (boolToJSString b))
    | none => formData
  let formData :=
    if truthyString options.combinationMethod then
      formData.append "combination_method" (.text (options.combinationMethod.getD ""))
    else formData
  let formData :=
    if truthyString options.context then
      formData.append "context" (.text (options.context.getD ""))
    else formData
  let formData :=
    if truthyString options.externalEngine then
      formData.append "external_engine" (.text (options.externalEngine.getD ""))
    else formData
  let formData :=
    match options.confidence with
    | some c => formData.append "confidence" (.text c.toJSString)
    | none => formData
  { endpoint := "/ocr/process", method := "POST", body := formData }

/-- The entry list the specification gives for the form of `processFile`: an optional entry
is the one-element list when its condition holds and the empty list otherwise. -/
def expectedForm (f : JSFile) (o : RequestOptions) : List (String × FormValue) :=
  [("file", FormValue.file f)]
  ++ (o.engines.getD []).map (fun e => ("engines", FormValue.text e))
  ++ (match o.language with
      | some l => if l ≠ "" then [("language", FormValue.text l)] else []
      | none => [])
  ++ (match o.aiCorrection with
      | some true => [("ai_correction", FormValue.text "true")]
      | some false => [("ai_correction", FormValue.text "false")]
      | none => [])
  ++ (match o.combinationMethod with
      | some m => if m ≠ "" then [("combination_method", FormValue.text m)] else []
      | none => [])
  ++ (match o.context with
      | some c => if c ≠ "" then [("context", FormValue.text c)] else []
      | none => [])
  ++ (match o.externalEngine with
      | some x => if x ≠ "" then [("external_engine", FormValue.text x)] else []
      | none => [])
  ++ (match o.confidence with
      | some c => [("confidence", FormValue.text c.toJSString)]
      | none => [])

/-! ## `App.jsx`: state -/

/-- The `processingOptions` state cell of `App`. -/
structure ProcessingOptions where
  engines : List String
  language : String
  aiCorrection : Bool
  combinationMethod : String
  context : String
  externalEngine : String
  confidence : JSNumber
  fileType : Option String
  deriving DecidableEq, Repr

/-- The options object as `processFile` sees it: every field that `processFile` reads is
present (`fileType` is not read). -/
def ProcessingOptions.toRequestOptions (o : ProcessingOptions) : RequestOptions :=
  { engines := some o.engines
    language := some o.language
    aiCorrection := some o.aiCorrection
    combinationMethod := some o.combinationMethod
    context := some o.context
    externalEngine := some o.externalEngine
    confidence := some o.confidence }

/-- The state cells of the `App` component (`useState` calls of `App.jsx`). -/
structure AppState where
  selectedFile : Option JSFile
  availableEngines : List String
  aiAvailable : Bool
  processing : Bool
  results : Option PipelineResponse
  error : String
  systemStatus : String
  processingOptions : ProcessingOptions
  deriving DecidableEq, Repr

/-- The initial value of `processingOptions`. -/
def initialProcessingOptions : ProcessingOptions :=
  { engines := ["tesseract"]
    language := "eng+ara"
    aiCorrection := true
    combinationMethod := "best_confidence"
    context := ""
    externalEngine := "ABBYY FineReader"
    confidence := .int 85
    fileType := none }

/-- The initial state of `App`. -/
def initialAppState : AppState :=
  { selectedFile := none
    availableEngines := []
    aiAvailable := false
    processing := false
    results := none
    error := ""
    systemStatus := "loading"
    processingOptions := initialProcessingOptions }

/-! ## `App.jsx`: handlers -/

/-- The `catch` block of `initializeSystem`. -/
def initializeSystemCatch (message : String) (s : AppState) : AppState :=
  let s := { s with error := "System initialization failed: " ++ message }
  { s with systemStatus := "error" }

/-- The function `initializeSystem` of `App.jsx`; `outcome` is what `await apiService.getEngines()`
delivers. -/
def initializeSystem (outcome : ApiOutcome EnginesResponse) (s : AppState) : AppState :=
  let s := { s with systemStatus := "loading" }
  match outcome with
  | .returned response =>
    if response.success then
      let s := { s with availableEngines := response.engines }
      let s := { s with aiAvailable := response.ai_correction_available }
      let s := { s with systemStatus := "ready" }
      { s with processingOptions :=
          { s.processingOptions with
            engines := if h : response.engines.length > 0 then [response.engines[0]] else []
            aiCorrection := response.ai_correction_available } }
    else initializeSystemCatch "Failed to initialize system" s
  | .threw message => initializeSystemCatch message s

/-- The handler `handleFileSelect` of `App.jsx`. -/
def handleFileSelect (file : JSFile) (s : AppState) : AppState :=
  let s := { s with selectedFile := some file }
  let s := { s with results := none }
  { s with error := "" }

/-- The handler `handleOptionsChange` of `App.jsx`. -/
def handleOptionsChange (newOptions : ProcessingOptions) (s : AppState) : AppState :=
  { s with processingOptions := newOptions }

/-- The message of the `TypeError` raised by reading the property `success` of `null` (the
wording of V8). -/
def nullSuccessMessage : String :=
  "Cannot read properties of null (reading 'success')"

/-- The handler `handleProcess` of `App.jsx`.  `request` stands for the back end reached
through `this.request`: it gives the outcome of the awaited `apiService.processFile` call,
which resolves with the parsed body (`none` for the JSON value `null`) or rejects.  Whatever
is thrown inside the `try` block (the rejection, the `TypeError` of `response.success` on
`null`, the `Error` built from `response.error`) reaches the `catch` block with its message.
The second component lists the calls of `apiService.processFile` that were made, with their
arguments. -/
def handleProcess (request : ApiRequest → ApiOutcome (Option PipelineResponse))
    (s : AppState) : AppState × List (JSFile × ProcessingOptions) :=
  match s.selectedFile with
  | none => ({ s with error := "Please select a file first" }, [])
  | some selectedFile =>
    if s.processingOptions.engines.length = 0 then
      ({ s with error := "Please select at least one OCR engine" }, [])
    else
      let s1 := { s with processing := true }
      let s1 := { s1 with error := "" }
      let s1 := { s1 with results := none }
      let s2 :=
        match request (processFile selectedFile s.processingOptions.toRequestOptions) with
        | .returned none => { s1 with error := "Processing failed: " ++ nullSuccessMessage }
        | .returned (some response) =>
          if response.success then { s1 with results := some response }
          else
            { s1 with error :=
                "Processing failed: " ++ orElseString response.error "Processing failed" }
        | .threw message => { s1 with error := "Processing failed: " ++ message }
      ({ s2 with processing := false }, [(selectedFile, s.processingOptions)])

/-- The handler `handleTextEdit` of `App.jsx`. -/
def handleTextEdit (newText : String) (s : AppState) : AppState :=
  match s.results with
  | some prev => { s with results := some { prev with final_text := some newText } }
  | none => s

/-- The record `saveData` built by `handleSaveResults`. -/
structure SaveData where
  timestamp : String
  filename : Option String
  final_text : String
  processing_settings : Option Settings
  ocr_results : Option (List (String × EngineResult))
  ai_correction : Option AiCorrection
  combined_result : Option CombinedResult
  deriving DecidableEq, Repr

/-- The handler `handleSaveResults` of `App.jsx`, up to the record that is serialised and
downloaded; `now` is `new Date().toISOString()`. -/
def handleSaveResults (now : String) (selectedFile : Option JSFile) (text : String)
    (resultsData : PipelineResponse) : SaveData :=
  { timestamp := now
    filename := selectedFile.map (fun f => f.name)
    final_text := text
    processing_settings := resultsData.settings
    ocr_results := resultsData.ocr_results
    ai_correction := resultsData.ai_correction
    combined_result := resultsData.combined_result }

/-- The rule of the data model for `final_text`: the text of the AI correction when it
succeeded, otherwise the text of the combined result, otherwise absent. -/
def authoritativeText (r : PipelineResponse) : Option String :=
  match r.ai_correction with
  | some a => if a.success then a.text else r.combined_result.map (fun c => c.text)
  | none => r.combined_result.map (fun c => c.text)

/-! ## `ProcessingOptions.jsx` -/

/-- The handler `handleEngineChange` of `ProcessingOptions.jsx`; the result is the object passed to
`onOptionsChange`. -/
def handleEngineChange (options : ProcessingOptions) (engine : String) (checked : Bool) :
    ProcessingOptions :=
  let newEngines :=
    if checked then options.engines ++ [engine]
    else options.engines.filter (fun e => e != engine)
  { options with engines := newEngines }

/-- A key of the options object together with a value for it, as `handleOptionChange`
receives them from the form controls. -/
inductive OptionUpdate where
  | combinationMethod (value : String)
  | language (value : String)
  | aiCorrection (value : Bool)
  | context (value : String)
  | externalEngine (value : String)
  | confidence (value : JSNumber)
  deriving DecidableEq, Repr

/-- The handler `handleOptionChange` of `ProcessingOptions.jsx`: `{ ...options, [key]: value }`. -/
def handleOptionChange (options : ProcessingOptions) : OptionUpdate → ProcessingOptions
  | .combinationMethod v => { options with combinationMethod := v }
  | .language v => { options with language := v }
  | .aiCorrection v => { options with aiCorrection := v }
  | .context v => { options with context := v }
  | .externalEngine v => { options with externalEngine := v }
  | .confidence v => { options with confidence := v }

/-- The `onChange` handler of the `Confidence Score (%)` input:
`handleOptionChange('confidence', parseFloat(e.target.value) || 85)`, where `parsed` is the
number `parseFloat` reads from the field. -/
def confidenceOnChange (options : ProcessingOptions) (parsed : JSNumber) : ProcessingOptions :=
  handleOptionChange options (.confidence (if parsed.truthy then parsed else .int 85))

/-- The `checked` property of the check box of an engine. -/
def engineChecked (options : ProcessingOptions) (engine : String) : Bool :=
  options.engines.contains engine

/-- The `disabled` property of the Process button. -/
def processButtonDisabled (options : ProcessingOptions) (processing : Bool) : Bool :=
  processing || options.engines.length == 0

/-- Whether the External OCR Settings card is rendered. -/
def externalSettingsShown (options : ProcessingOptions) : Bool :=
  options.fileType == some "txt"

/-! ## `services/api.js`: `request` -/

/-- A plain object with string values, used for request headers: its own properties in
insertion order, each key once. -/
abbrev Headers := List (String × String)

/-- The assignment `obj[key] = value`: an existing property keeps its place and takes the new
value, a new property is added last. -/
def Headers.set (h : Headers) (key value : String) : Headers :=
  if h.any (fun p => p.1 == key) then h.map (fun p => if p.1 == key then (key, value) else p)
  else h ++ [(key, value)]

/-- The spread `{ ...target, ...source }`: every property of `source` is assigned in turn. -/
def Headers.spread (target source : Headers) : Headers :=
  source.foldl (fun acc p => acc.set p.1 p.2) target

/-- The statement `delete obj[key]`. -/
def Headers.delete (h : Headers) (key : String) : Headers :=
  h.filter (fun p => p.1 != key)

/-- The property read `obj[key]`. -/
def Headers.get (h : Headers) (key : String) : Option String :=
  h.lookup key

/-- The `body` of a request: a `FormData`, or the string `JSON.stringify(payload)`. -/
inductive RequestBody where
  | formData (fd : FormData)
  | jsonText (payload : Json)
  deriving Repr

/-- The `options` argument of `request`; a missing property is `none`. -/
structure RequestInit where
  method : Option String := none
  headers : Option Headers := none
  body : Option RequestBody := none
  deriving Repr

/-- The `config` object that `request` hands to `fetch`. -/
structure FetchConfig where
  headers : Headers
  method : Option String
  body : Option RequestBody
  deriving Repr

/-- The constant `API_BASE_URL`. -/
def API_BASE_URL : String := "http://localhost:5002/api"

/-- The first part of `APIService.request` (up to the `try`): the `config` built from
`options`. The object literal first sets `headers` to the default merged with
`options.headers`, then spreads `options` over it, so every own property of `options`
(`headers` included) replaces the one set before; last, `Content-Type` is deleted when the
body is a `FormData`. -/
def requestConfig (options : RequestInit) : FetchConfig :=
  let config : FetchConfig :=
    { headers := Headers.spread [("Content-Type", "application/json")] (options.headers.getD [])
      method := none
      body := none }
  let config :=
    match options.method with
    | some m => { config with method := some m }
    | none => config
  let config :=
    match options.headers with
    | some h => { config with headers := h }
    | none => config
  let config :=
    match options.body with
    | some b => { config with body := some b }
    | none => config
  match options.body with
  | some (.formData _) => { config with headers := config.headers.delete "Content-Type" }
  | _ => config

/-- What `fetch` resolves with, as far as `request` reads it: `ok`, `status` and the outcome
of `response.json()` (it rejects when the body is not JSON). -/
structure FetchResponse where
  ok : Bool
  status : Nat
  json : ApiOutcome Json

/-- The value `errorData.error || 'HTTP error! status: ' + response.status` turned into the
message of the thrown `Error`; a failing conversion throws its own `TypeError`. -/
def errorMessage (error : Option Json) (status : Nat) : String :=
  match error with
  | some e =>
    if e.truthy then
      match e.toJSString with
      | .ok message => message
      | .error typeError => typeError
    else "HTTP error! status: " ++ toString status
  | none => "HTTP error! status: " ++ toString status

/-- The method `APIService.request(endpoint, options)`; `fetch` is the network, given by the
outcome of each call. The `catch` block logs and rethrows, so every error leaves the method
as it was thrown. -/
def APIService.request (fetch : String → FetchConfig → ApiOutcome FetchResponse)
    (endpoint : String) (options : RequestInit) : ApiOutcome Json :=
  let url := API_BASE_URL ++ endpoint
  let config := requestConfig options
  match fetch url config with
  | .threw message => .threw message
  | .returned response =>
    if !response.ok then
      let errorData :=
        match response.json with
        | .returned data => data
        | .threw _ => Json.obj []
      match errorData.getError with
      | .error typeError => .threw typeError
      | .ok error => .threw (errorMessage error response.status)
    else response.json

/-- The `options` that `processFile` passes to `request`: `{ method: 'POST', body: formData }`. -/
def ApiRequest.toRequestInit (r : ApiRequest) : RequestInit :=
  { method := some r.method, body := some (.formData r.body) }

/-- The endpoint and options of `getEngines`. -/
def getEnginesRequest : String × RequestInit :=
  ("/ocr/engines", {})

/-- The endpoint and options of `correctText(text, language, context)`. -/
def correctTextRequest (text language context : String) : String × RequestInit :=
  ("/ocr/correct-text",
    { method := some "POST"
      body := some (.jsonText
        (.obj [("text", .str text), ("language", .str language), ("context", .str context)])) })

/-- The endpoint and options of `getSuggestions(text, language)`. -/
def getSuggestionsRequest (text language : String) : String × RequestInit :=
  ("/ocr/suggest-improvements",
    { method := some "POST"
      body := some (.jsonText (.obj [("text", .str text), ("language", .str language)])) })

/-- The endpoint and options of `healthCheck`. -/
def healthCheckRequest : String × RequestInit :=
  ("/ocr/health", {})

/-- The message of the `TypeError` raised by reading the property `request` of `undefined`
(the wording of V8). -/
def undefinedRequestMessage : String :=
  "Cannot read properties of undefined (reading 'request')"

/-- A call of the method `processFile` with a given value of `this`: the instance, given by
its `request` method, or `undefined`. The form is built first; then `this.request` is read,
which throws a `TypeError` when `this` is `undefined`, and since the method is `async` the
error is the rejection of the returned promise. The second component lists the calls of
`this.request` that were made, with their arguments. -/
def processFileCall (thisValue : Option (String → RequestInit → ApiOutcome Json))
    (file : JSFile) (options : RequestOptions) :
    ApiOutcome Json × List (String × RequestInit) :=
  let call := processFile file options
  match thisValue with
  | some request =>
    (request call.endpoint call.toRequestInit, [(call.endpoint, call.toRequestInit)])
  | none => (.threw undefinedRequestMessage, [])

/-- The call `apiService.processFile(file, options)` on the exported instance, whose
`request` method reaches the network `fetch`. -/
def apiServiceProcessFile (fetch : String → FetchConfig → ApiOutcome FetchResponse)
    (file : JSFile) (options : RequestOptions) :
    ApiOutcome Json × List (String × RequestInit) :=
  processFileCall (some (APIService.request fetch)) file options

/-- The named export `processFile` of `api.js` (`export const { ..., processFile, ... } =
apiService`, under the comment 'Export individual methods for convenience'), called as a
plain function: the method is detached from the instance, so `this` is `undefined`. -/
def exportedProcessFile (file : JSFile) (options : RequestOptions) :
    ApiOutcome Json × List (String × RequestInit) :=
  processFileCall none file options

/-! ## `App.jsx`: the file-type effect -/

/-- The call `s.split(sep)` for a separator of one character: `cur` is the piece being
read (reversed), the list is the rest of the input. -/
def splitOnChar (sep : Char) : List Char → List Char → List (List Char)
  | cur, [] => [cur.reverse]
  | cur, c :: cs =>
    if c = sep then cur.reverse :: splitOnChar sep [] cs
    else splitOnChar sep (c :: cur) cs

/-- The effect of `App.jsx` that runs when `selectedFile` changes:
`selectedFile.name.split('.').pop().toLowerCase()` becomes the `fileType` option.
`toLowerCase` is the built-in `String.prototype.toLowerCase`. (`pop` of an empty array would
give `undefined` and the effect would throw before any update.) -/
def fileTypeEffect (toLowerCase : String → String) (s : AppState) : AppState :=
  match s.selectedFile with
  | some selectedFile =>
    match (splitOnChar '.' [] selectedFile.name.toList).getLast? with
    | some last =>
      let fileExtension := toLowerCase (String.mk last)
      { s with processingOptions := { s.processingOptions with fileType := some fileExtension } }
    | none => s
  | none => s

/-- Lower-casing of the letters `A` to `Z`, on which `toLowerCase` agrees with it. -/
def asciiToLowerCase (s : String) : String :=
  String.mk (s.toList.map Char.toLower)

/-! ## `ResultsDisplay.jsx`: confidence badge -/

/-- The function `getConfidenceColor` of `ResultsDisplay.jsx`. -/
def getConfidenceColor (confidence : JSNumber) : String :=
  if confidence.ge 90 then "bg-green-100 text-green-800"
  else if confidence.ge 70 then "bg-yellow-100 text-yellow-800"
  else "bg-red-100 text-red-800"

/-- The icons of the confidence badge. -/
inductive Icon where
  | CheckCircle
  | AlertCircle
  deriving DecidableEq, Repr

/-- The function `getConfidenceIcon` of `ResultsDisplay.jsx`. -/
def getConfidenceIcon (confidence : JSNumber) : Icon :=
  if confidence.ge 70 then .CheckCircle
  else .AlertCircle

/-! ## Sample values -/

/-- A sample upload: a plain-text transcript. -/
def sampleTxtFile : JSFile :=
  { name := "scan.txt", content := "helo world" }

/-- A sample state: a text file is selected, its type is recorded, no engine is ticked. -/
def sampleTxtStateNoEngines : AppState :=
  { initialAppState with
    selectedFile := some sampleTxtFile
    systemStatus := "ready"
    processingOptions :=
      { initialProcessingOptions with engines := [], fileType := some "txt" } }

/-- A sample state: a text file is selected and the default engine is ticked. -/
def sampleReadyState : AppState :=
  { initialAppState with
    selectedFile := some sampleTxtFile
    systemStatus := "ready"
    processingOptions := { initialProcessingOptions with fileType := some "txt" } }

/-- A sample successful response whose `final_text` is the text of its AI correction. -/
def sampleResponse : PipelineResponse :=
  { success := true
    ocr_results := some [("tesseract",
      { success := true, text := some "helo world", confidence := some (.int 80),
        word_count := some 2, language := some "eng", error := none })]
    combined_result := some { text := "helo world", confidence := .int 80 }
    ai_correction := some
      { success := true, text := some "hello world", confidence := some (.int 95),
        changes_made := some [{ original := "helo", corrected := "hello" }],
        model_used := some "gpt", error := none }
    final_text := some "hello world"
    settings := some
      { engines := ["tesseract"], language := "eng", ai_correction := true,
        combination_method := "best_confidence" }
    error := none }

/-- A sample failed response. -/
def sampleFailure : PipelineResponse :=
  { success := false, ocr_results := none, combined_result := none, ai_correction := none,
    final_text := none, settings := none, error := some (.str "No engine succeeded") }

/-- A back end that answers every request with the sample response. -/
def sampleBackend : ApiRequest → ApiOutcome (Option PipelineResponse) :=
  fun _ => .returned (some sampleResponse)

/-- A back end that answers every request with `{ success: false, error: 42 }`. -/
def numericErrorBackend : ApiRequest → ApiOutcome (Option PipelineResponse) :=
  fun _ => .returned (some { sampleFailure with error := some (.num (.int 42)) })

/-- A back end that answers every request with the JSON value `null`. -/
def nullResponseBackend : ApiRequest → ApiOutcome (Option PipelineResponse) :=
  fun _ => .returned none

/-- The state of `App` after a sequence of `handleTextEdit` calls, oldest first. -/
def applyTextEdits (edits : List String) (s : AppState) : AppState :=
  edits.foldl (fun st newText => handleTextEdit newText st) s

/-- A sample answer of the engine-availability query. -/
def sampleEngines : EnginesResponse :=
  { success := true, engines := ["tesseract", "easyocr"], ai_correction_available := false }

/-- A network whose every answer is status 500 with the JSON body `null`. -/
def nullBodyFetch : String → FetchConfig → ApiOutcome FetchResponse :=
  fun _ _ => .returned { ok := false, status := 500, json := .returned .null }

/-- Sample options of `request`: one custom header, no body. -/
def sampleHeaderOptions : RequestInit :=
  { headers := some [("Authorization", "Bearer token")] }

/-- A sample state: an upper-case text file is selected, its type not yet recorded. -/
def sampleUpperCaseState : AppState :=
  { initialAppState with
    selectedFile := some { name := "Report.final.TXT", content := "" }
    systemStatus := "ready" }

/-! # Properties -/

/-! ## Word count -/

theorem countRunsFrom_nil (prev : Char) : countRunsFrom prev [] = 0 := by
  simp [countRunsFrom]

theorem countRunsFrom_cons (prev c : Char) (cs : List Char) :
    countRunsFrom prev (c :: cs) =
      (if (isJsWhitespace prev && !isJsWhitespace c) = true then 1 else 0)
        + countRunsFrom c cs := by
  simp only [countRunsFrom, List.zip_cons_cons, List.countP_cons]
  omega

theorem nonEmptyTokens_cons (w : List Char) (ws : List (List Char)) :
    nonEmptyTokens (w :: ws) = (if w = [] then 0 else 1) + nonEmptyTokens ws := by
  cases w with
  | nil => simp [nonEmptyTokens]
  | cons a l => simp [nonEmptyTokens]; omega

theorem splitLoop_count (rest : List Char) :
    (∀ cur prev, cur ≠ [] → isJsWhitespace prev = false →
        nonEmptyTokens (splitLoop false cur rest) = 1 + countRunsFrom prev rest) ∧
    (∀ b prev, isJsWhitespace prev = true →
        nonEmptyTokens (splitLoop b [] rest) = countRunsFrom prev rest) := by
  induction rest with
  | nil =>
    refine ⟨fun cur prev hcur _ => ?_, fun b prev _ => ?_⟩
    · have : cur.reverse ≠ [] := by simpa using hcur
      simp only [splitLoop]
      rw [nonEmptyTokens_cons]
      simp [countRunsFrom_nil, this, nonEmptyTokens]
    · simp [splitLoop, countRunsFrom_nil, nonEmptyTokens]
  | cons c cs ih =>
    obtain ⟨ihA, ihB⟩ := ih
    refine ⟨fun cur prev hcur hprev => ?_, fun b prev hprev => ?_⟩
    · have hrev : cur.reverse ≠ [] := by simpa using hcur
      cases hc : isJsWhitespace c with
      | true =>
        simp [splitLoop, hc, nonEmptyTokens_cons, hrev, countRunsFrom_cons, hprev,
          ihB true c hc]
      | false =>
        simp [splitLoop, hc, countRunsFrom_cons, hprev,
          ihA (c :: cur) c (by simp) hc]
    · cases hc : isJsWhitespace c with
      | true =>
        cases b <;>
          simp [splitLoop, hc, nonEmptyTokens_cons, countRunsFrom_cons, hprev, ihB true c hc]
      | false =>
        simp [splitLoop, hc, countRunsFrom_cons, hprev, ihA [c] c (by simp) hc]

theorem countRunsFrom_eq_zero (prev : Char) (t : List Char)
    (h : ∀ c ∈ t, isJsWhitespace c = true) : countRunsFrom prev t = 0 := by
  induction t generalizing prev with
  | nil => exact countRunsFrom_nil prev
  | cons c cs ih =>
    rw [countRunsFrom_cons, ih c (fun d hd => h d (List.mem_cons_of_mem _ hd))]
    simp [h c (List.mem_cons_self _ _)]

theorem wordCount_eq (t : String) : wordCount t = countNonWhitespaceRuns t := by
  unfold wordCount countNonWhitespaceRuns
  cases ht : t.toList with
  | nil => simp [splitWhitespace, countRunsFrom_nil]
  | cons c cs =>
    have h := (splitLoop_count (c :: cs)).2 false ' ' (by decide)
    simpa [splitWhitespace, nonEmptyTokens] using h

/-- C1: the word count shown under the text area equals the number of maximal runs of
non-whitespace characters of the text; it is 0 for the empty string and for every
whitespace-only string, and 2 for `"  hello   world  "`. -/
theorem wordCount_eq_nonWhitespaceRuns :
    (∀ t : String, wordCount t = countNonWhitespaceRuns t) ∧
    wordCount "" = 0 ∧
    (∀ t : String, (∀ c ∈ t.toList, isJsWhitespace c = true) → wordCount t = 0) ∧
    wordCount "  hello   world  " = 2 := by
  refine ⟨wordCount_eq, by decide, fun t ht => ?_, by decide⟩
  rw [wordCount_eq]
  exact countRunsFrom_eq_zero ' ' t.toList ht

/-- Witness for C1: a text of a blank, a tab and a line feed has no word. -/
theorem wordCount_eq_nonWhitespaceRuns_witness : wordCount " \t\n" = 0 :=
  wordCount_eq_nonWhitespaceRuns.2.2.1 " \t\n" (by decide)

/-! ## `handleProcess`: validation -/

/-- C2: with a selected file and an empty engine list `handleProcess` calls
`apiService.processFile` not at all, sets the error to 'Please select at least one OCR engine'
and leaves `results` and `processing` as they were; with no selected file it calls nothing and
sets the error to 'Please select a file first', whatever the engine list is. -/
theorem handleProcess_validation (request : ApiRequest → ApiOutcome (Option PipelineResponse))
    (s : AppState) :
    (∀ f, s.selectedFile = some f → s.processingOptions.engines = [] →
      (handleProcess request s).2 = [] ∧
      (handleProcess request s).1.error = "Please select at least one OCR engine" ∧
      (handleProcess request s).1.results = s.results ∧
      (handleProcess request s).1.processing = s.processing) ∧
    (s.selectedFile = none →
      (handleProcess request s).2 = [] ∧
      (handleProcess request s).1.error = "Please select a file first" ∧
      (handleProcess request s).1.results = s.results ∧
      (handleProcess request s).1.processing = s.processing) := by
  refine ⟨fun f hf he => ?_, fun hf => ?_⟩
  · simp [handleProcess, hf, he]
  · simp [handleProcess, hf]

/-- Witness for C2: a state with a file and no engine, and the initial state, which has an
engine but no file. -/
theorem handleProcess_validation_witness :
    ((handleProcess sampleBackend sampleTxtStateNoEngines).2 = [] ∧
      (handleProcess sampleBackend sampleTxtStateNoEngines).1.error
        = "Please select at least one OCR engine" ∧
      (handleProcess sampleBackend sampleTxtStateNoEngines).1.results
        = sampleTxtStateNoEngines.results ∧
      (handleProcess sampleBackend sampleTxtStateNoEngines).1.processing
        = sampleTxtStateNoEngines.processing) ∧
    ((handleProcess sampleBackend initialAppState).2 = [] ∧
      (handleProcess sampleBackend initialAppState).1.error = "Please select a file first" ∧
      (handleProcess sampleBackend initialAppState).1.results = initialAppState.results ∧
      (handleProcess sampleBackend initialAppState).1.processing
        = initialAppState.processing) :=
  ⟨(handleProcess_validation sampleBackend sampleTxtStateNoEngines).1 sampleTxtFile rfl rfl,
   (handleProcess_validation sampleBackend initialAppState).2 rfl⟩

/-- C3, as written, fails: with a selected text file of type 'txt' and no engine ticked,
`handleProcess` does not submit the request; it makes no call and reports the missing
engine. -/
theorem handleProcess_txt_not_submitted :
    sampleTxtStateNoEngines.selectedFile = some sampleTxtFile ∧
    sampleTxtStateNoEngines.processingOptions.fileType = some "txt" ∧
    sampleTxtStateNoEngines.processingOptions.engines = [] ∧
    (handleProcess sampleBackend sampleTxtStateNoEngines).2
      ≠ [(sampleTxtFile, sampleTxtStateNoEngines.processingOptions)] ∧
    (handleProcess sampleBackend sampleTxtStateNoEngines).2 = [] := by
  decide

/-- C3, amended: also for a text file the engine list has to be non-empty. For every state
whose selected file has file type 'txt', `handleProcess` submits the request (one call of
`apiService.processFile` with the file and the options) exactly when the engine list is
non-empty; with an empty list it makes no call, reports 'Please select at least one OCR
engine', and the Process button is disabled. -/
theorem handleProcess_txt_requires_engine
    (request : ApiRequest → ApiOutcome (Option PipelineResponse)) (s : AppState) (f : JSFile)
    (hf : s.selectedFile = some f) (ht : s.processingOptions.fileType = some "txt") :
    ((handleProcess request s).2 = [(f, s.processingOptions)]
        ↔ s.processingOptions.engines ≠ []) ∧
    (s.processingOptions.engines = [] →
      (handleProcess request s).2 = [] ∧
      (handleProcess request s).1.error = "Please select at least one OCR engine" ∧
      processButtonDisabled s.processingOptions s.processing = true) := by
  have _ := ht
  by_cases he : s.processingOptions.engines = []
  · simp [handleProcess, hf, he, processButtonDisabled]
  · have hl : s.processingOptions.engines.length ≠ 0 := by
      simpa [List.length_eq_zero] using he
    simp [handleProcess, hf, he, hl]

/-- Witness for C3 (amended): the sample state with a text file and no engine. -/
theorem handleProcess_txt_requires_engine_witness :
    ((handleProcess sampleBackend sampleTxtStateNoEngines).2
        = [(sampleTxtFile, sampleTxtStateNoEngines.processingOptions)]
        ↔ sampleTxtStateNoEngines.processingOptions.engines ≠ []) ∧
    (sampleTxtStateNoEngines.processingOptions.engines = [] →
      (handleProcess sampleBackend sampleTxtStateNoEngines).2 = [] ∧
      (handleProcess sampleBackend sampleTxtStateNoEngines).1.error
        = "Please select at least one OCR engine" ∧
      processButtonDisabled sampleTxtStateNoEngines.processingOptions
        sampleTxtStateNoEngines.processing = true) :=
  handleProcess_txt_requires_engine sampleBackend sampleTxtStateNoEngines sampleTxtFile rfl rfl

/-! ## `processFile`: the submitted form -/

theorem appendEngines_eq (fd : FormData) (engines : List String) :
    appendEngines fd engines = fd ++ engines.map (fun e => ("engines", FormValue.text e)) := by
  induction engines generalizing fd with
  | nil => simp [appendEngines]
  | cons e rest ih => simp [appendEngines, ih, FormData.append]

theorem appendIfTruthy_eq (fd : FormData) (name : String) (v : Option String) :
    (if truthyString v = true then fd.append name (.text (v.getD "")) else fd)
      = fd ++ (match v with
          | some l => if l ≠ "" then [(name, FormValue.text l)] else []
          | none => []) := by
  cases v with
  | none => simp [truthyString]
  | some l =>
    by_cases hl : l = ""
    · simp [truthyString, hl]
    · simp [truthyString, hl, FormData.append]

theorem appendBool_eq (fd : FormData) (name : String) (v : Option Bool) :
    (match v with
      | some b => fd.append name (.text (boolToJSString b))
      | none => fd)
      = fd ++ (match v with
          | some true => [(name, FormValue.text "true")]
          | some false => [(name, FormValue.text "false")]
          | none => []) := by
  cases v with
  | none => simp
  | some b => cases b <;> simp [FormData.append, boolToJSString]

theorem appendNumber_eq (fd : FormData) (name : String) (v : Option JSNumber) :
    (match v with
      | some c => fd.append name (.text c.toJSString)
      | none => fd)
      = fd ++ (match v with
          | some c => [(name, FormValue.text c.toJSString)]
          | none => []) := by
  cases v with
  | none => simp
  | some c => simp [FormData.append]

theorem appendEnginesIfAny_eq (fd : FormData) (v : Option (List String)) :
    (match v with
      | some engines => if engines.length > 0 then appendEngines fd engines else fd
      | none => fd)
      = fd ++ (v.getD []).map (fun e => ("engines", FormValue.text e)) := by
  cases v with
  | none => simp
  | some es =>
    cases es with
    | nil => simp
    | cons e rest => simp [appendEngines_eq]

theorem processFile_body (f : JSFile) (o : RequestOptions) :
    (processFile f o).body = expectedForm f o := by
  unfold processFile expectedForm
  simp only [appendIfTruthy_eq, appendBool_eq, appendNumber_eq, appendEnginesIfAny_eq]
  simp only [FormData.append, List.nil_append, List.append_assoc]

theorem confidence_entry (f : JSFile) (o : RequestOptions) (c : JSNumber) (text : String)
    (h : c.toJSString = text) :
    ("confidence", FormValue.text text)
      ∈ (processFile f { o with confidence := some c }).body := by
  rw [processFile_body]
  simp [expectedForm, h]

/-- C4: called on the instance, `processFile` posts to '/ocr/process' a form whose entries
are, in order: the file; one 'engines' entry per element of `engines`, in the same order and
multiplicity; 'language' iff it is a non-empty string; 'ai_correction' as 'true' or 'false'
iff `aiCorrection` is defined (so `false` is sent as 'false'); 'combination_method',
'context' and 'external_engine' iff non-empty; 'confidence' as the decimal string iff
`confidence` is defined (0 is sent as '0', 85 as '85', 92.5 as '92.5', 10²¹ as '1e+21');
and nothing else. Called as the named export, detached from the instance, `processFile`
rejects with the `TypeError` of reading `this.request` and posts nothing. -/
theorem processFile_form (f : JSFile) (o : RequestOptions)
    (fetch : String → FetchConfig → ApiOutcome FetchResponse) :
    processFile f o
      = { endpoint := "/ocr/process", method := "POST", body := expectedForm f o } ∧
    ("ai_correction", FormValue.text "false")
      ∈ (processFile f { o with aiCorrection := some false }).body ∧
    ("confidence", FormValue.text "0")
      ∈ (processFile f { o with confidence := some (.int 0) }).body ∧
    ("confidence", FormValue.text "85")
      ∈ (processFile f { o with confidence := some (.int 85) }).body ∧
    ("confidence", FormValue.text "92.5")
      ∈ (processFile f { o with confidence := some (.finite false 925 2) }).body ∧
    ("confidence", FormValue.text "1e+21")
      ∈ (processFile f { o with confidence := some (.int (10 ^ 21)) }).body ∧
    ("confidence", FormValue.text "NaN")
      ∈ (processFile f { o with confidence := some .nan }).body ∧
    apiServiceProcessFile fetch f o
      = (APIService.request fetch "/ocr/process"
          { method := some "POST", body := some (.formData (expectedForm f o)) },
         [("/ocr/process",
           { method := some "POST", body := some (.formData (expectedForm f o)) })]) ∧
    exportedProcessFile f o
      = (.threw "Cannot read properties of undefined (reading 'request')", []) := by
  have hbody := processFile_body f o
  refine ⟨?_, ?_, confidence_entry f o _ _ (by decide), confidence_entry f o _ _ (by decide),
    confidence_entry f o _ _ (by decide), confidence_entry f o _ _ (by decide),
    confidence_entry f o _ _ (by decide), ?_, rfl⟩
  · simp only [processFile] at hbody ⊢
    simp only [hbody]
  · rw [processFile_body]
    simp [expectedForm]
  · simp only [apiServiceProcessFile, processFileCall, ApiRequest.toRequestInit, hbody]
    rfl

/-! ## `handleEngineChange`: the engine list -/

/-- C5, as written, fails: ticking an engine that is already in the duplicate-free list
`['tesseract']` yields `['tesseract', 'tesseract']`, which has a duplicate. -/
theorem handleEngineChange_duplicates :
    initialProcessingOptions.engines.Nodup ∧
    (handleEngineChange initialProcessingOptions "tesseract" true).engines
      = ["tesseract", "tesseract"] ∧
    ¬ (handleEngineChange initialProcessingOptions "tesseract" true).engines.Nodup := by
  decide

/-- C5, amended: for every duplicate-free engine list, every engine `e` and every flag
`checked` such that `checked` is set only for an engine that is not yet in the list (what the
check box, whose state is `engines.includes(e)`, delivers when toggled), the new list is
duplicate-free, the engines kept from the old list retain their relative order (a checked
engine is appended last, an unchecked engine is removed and nothing else is), and every
other option field is unchanged. -/
theorem handleEngineChange_ordered_set (options : ProcessingOptions) (engine : String)
    (checked : Bool) (hnodup : options.engines.Nodup)
    (hnew : checked = true → engine ∉ options.engines) :
    (handleEngineChange options engine checked).engines.Nodup ∧
    (checked = true →
      (handleEngineChange options engine checked).engines = options.engines ++ [engine]) ∧
    (checked = false →
      (handleEngineChange options engine checked).engines
        = options.engines.filter (fun e => decide (e ≠ engine)) ∧
      (handleEngineChange options engine checked).engines.Sublist options.engines ∧
      engine ∉ (handleEngineChange options engine checked).engines ∧
      ∀ e ∈ options.engines, e ≠ engine →
        e ∈ (handleEngineChange options engine checked).engines) ∧
    handleEngineChange options engine checked
      = { options with engines := (handleEngineChange options engine checked).engines } := by
  cases checked with
  | true =>
    have hmem := hnew rfl
    refine ⟨?_, fun _ => by simp [handleEngineChange], fun h => by simp at h, rfl⟩
    simp only [handleEngineChange, if_true]
    exact List.Nodup.append hnodup (List.nodup_singleton engine) (by simpa using hmem)
  | false =>
    have hfilter : (handleEngineChange options engine false).engines
        = options.engines.filter (fun e => decide (e ≠ engine)) := by
      show List.filter (fun e => e != engine) options.engines = _
      congr 1
      funext e
      by_cases h : e = engine <;> simp [h]
    refine ⟨?_, fun h => by simp at h, fun _ => ⟨hfilter, ?_, ?_, ?_⟩, rfl⟩
    · rw [hfilter]; exact hnodup.filter _
    · rw [hfilter]; exact List.filter_sublist _
    · rw [hfilter]; simp
    · intro e he hne
      rw [hfilter]
      simp [he, hne]

/-- Witness for C5 (amended): a second engine is ticked in the initial options. -/
theorem handleEngineChange_ordered_set_witness :
    (handleEngineChange initialProcessingOptions "easyocr" true).engines.Nodup ∧
    (true = true →
      (handleEngineChange initialProcessingOptions "easyocr" true).engines
        = initialProcessingOptions.engines ++ ["easyocr"]) ∧
    (true = false →
      (handleEngineChange initialProcessingOptions "easyocr" true).engines
        = initialProcessingOptions.engines.filter (fun e => decide (e ≠ "easyocr")) ∧
      (handleEngineChange initialProcessingOptions "easyocr" true).engines.Sublist
        initialProcessingOptions.engines ∧
      "easyocr" ∉ (handleEngineChange initialProcessingOptions "easyocr" true).engines ∧
      ∀ e ∈ initialProcessingOptions.engines, e ≠ "easyocr" →
        e ∈ (handleEngineChange initialProcessingOptions "easyocr" true).engines) ∧
    handleEngineChange initialProcessingOptions "easyocr" true
      = { initialProcessingOptions with
          engines := (handleEngineChange initialProcessingOptions "easyocr" true).engines } :=
  handleEngineChange_ordered_set initialProcessingOptions "easyocr" true (by decide)
    (by decide)

/-! ## The confidence field -/

/-- C6, evaluated at the failing input: with 92 in the options, entering 0 in the
'Confidence Score (%)' field stores 85, not 0, and `processFile` then sends 'confidence' =
'85'; the other option fields are unchanged. -/
theorem confidenceOnChange_zero :
    confidenceOnChange { initialProcessingOptions with confidence := .int 92 } (.int 0)
      = { initialProcessingOptions with confidence := .int 85 } ∧
    (confidenceOnChange { initialProcessingOptions with confidence := .int 92 }
      (.int 0)).confidence ≠ .int 0 ∧
    ("confidence", FormValue.text "85") ∈ (processFile sampleTxtFile
      (confidenceOnChange { initialProcessingOptions with confidence := .int 92 }
        (.int 0)).toRequestOptions).body := by
  decide

/-- Every number other than 0 and `NaN` entered in the confidence field is stored as
entered, all other option fields unchanged. -/
theorem confidenceOnChange_nonzero (options : ProcessingOptions) (i : Int) (hi : i ≠ 0) :
    confidenceOnChange options (.int i) = { options with confidence := .int i } := by
  simp [confidenceOnChange, handleOptionChange, JSNumber.truthy, JSNumber.int, hi]

/-! ## `handleProcess`: the outcome of the request -/

theorem handleProcess_submitted (request : ApiRequest → ApiOutcome (Option PipelineResponse))
    (s : AppState) (f : JSFile) (hf : s.selectedFile = some f)
    (he : s.processingOptions.engines ≠ []) :
    (handleProcess request s).1 =
      match request (processFile f s.processingOptions.toRequestOptions) with
      | .returned none =>
        { s with
          processing := false
          error := "Processing failed: " ++ nullSuccessMessage
          results := none }
      | .returned (some response) =>
        if response.success then
          { s with processing := false, error := "", results := some response }
        else
          { s with
            processing := false
            error := "Processing failed: " ++ orElseString response.error "Processing failed"
            results := none }
      | .threw message =>
        { s with
          processing := false, error := "Processing failed: " ++ message, results := none } := by
  have hl : s.processingOptions.engines.length ≠ 0 := by
    simpa [List.length_eq_zero] using he
  simp only [handleProcess, hf, hl, if_false]
  cases request (processFile f s.processingOptions.toRequestOptions) with
  | returned response =>
    cases response with
    | none => simp [← hf]
    | some response => cases hs : response.success <;> simp [hs, ← hf]
  | threw message => simp [← hf]

/-- C9, as written, fails: for the response `{ success: false, error: 42 }`, whose `error`
is not a non-empty string, the error becomes 'Processing failed: 42' and not 'Processing
failed: Processing failed'; for the response `null` it becomes 'Processing failed: ' followed
by the message of the `TypeError` of reading `null.success`. In both cases `results` stays
null and `processing` ends false. -/
theorem handleProcess_error_not_string :
    sampleReadyState.selectedFile = some sampleTxtFile ∧
    sampleReadyState.processingOptions.engines ≠ [] ∧
    (handleProcess numericErrorBackend sampleReadyState).1.error = "Processing failed: 42" ∧
    (handleProcess numericErrorBackend sampleReadyState).1.error
      ≠ "Processing failed: Processing failed" ∧
    (handleProcess numericErrorBackend sampleReadyState).1.results = none ∧
    (handleProcess nullResponseBackend sampleReadyState).1.error
      = "Processing failed: Cannot read properties of null (reading 'success')" ∧
    (handleProcess nullResponseBackend sampleReadyState).1.error
      ≠ "Processing failed: Processing failed" ∧
    (handleProcess nullResponseBackend sampleReadyState).1.results = none ∧
    (handleProcess nullResponseBackend sampleReadyState).1.processing = false := by
  decide

/-- C9, amended: with a file selected and a non-empty engine list, for every response `r`
other than `null` that `apiService.processFile` returns, `results` becomes `r` exactly when
`r.success` is truthy; when it is falsy `results` is null and the error is 'Processing
failed: ' followed by the string form of `r.error` if `r.error` is truthy (`r.error` itself
for a non-empty string) and by 'Processing failed' if `r.error` is falsy or absent; for the
response `null` `results` is null and the error is 'Processing failed: ' followed by the
message of the `TypeError` of reading `null.success`; in every case, and when `processFile`
throws, `processing` is false at the end. -/
theorem handleProcess_outcome (request : ApiRequest → ApiOutcome (Option PipelineResponse))
    (s : AppState) (f : JSFile) (hf : s.selectedFile = some f)
    (he : s.processingOptions.engines ≠ []) :
    (∀ r, request (processFile f s.processingOptions.toRequestOptions) = .returned (some r) →
      ((handleProcess request s).1.results = some r ↔ r.success = true) ∧
      (r.success = false →
        (handleProcess request s).1.results = none ∧
        (∀ e, r.error = some (.str e) → e ≠ "" →
          (handleProcess request s).1.error = "Processing failed: " ++ e) ∧
        (∀ value message, r.error = some value → value.truthy = true →
          value.toJSString = .ok message →
          (handleProcess request s).1.error = "Processing failed: " ++ message) ∧
        (∀ value typeError, r.error = some value → value.truthy = true →
          value.toJSString = .error typeError →
          (handleProcess request s).1.error = "Processing failed: " ++ typeError) ∧
        (r.error = none ∨ (∃ value, r.error = some value ∧ value.truthy = false) →
          (handleProcess request s).1.error = "Processing failed: Processing failed")) ∧
      (handleProcess request s).1.processing = false) ∧
    (request (processFile f s.processingOptions.toRequestOptions) = .returned none →
      (handleProcess request s).1.results = none ∧
      (handleProcess request s).1.error = "Processing failed: " ++ nullSuccessMessage ∧
      (handleProcess request s).1.processing = false) ∧
    (∀ m, request (processFile f s.processingOptions.toRequestOptions) = .threw m →
      (handleProcess request s).1.results = none ∧
      (handleProcess request s).1.error = "Processing failed: " ++ m ∧
      (handleProcess request s).1.processing = false) := by
  rw [handleProcess_submitted request s f hf he]
  refine ⟨fun r hr => ?_, fun hr => ?_, fun m hm => ?_⟩
  · rw [hr]
    cases hs : r.success with
    | true => simp [hs]
    | false =>
      refine ⟨by simp [hs], fun _ => ⟨by simp [hs], fun e hre hne => ?_,
        fun value message hre ht hm => ?_, fun value typeError hre ht hm => ?_,
        fun h => ?_⟩, by simp [hs]⟩
      · simp [hs, hre, orElseString, Json.truthy, hne, Json.toJSString]
      · simp [hs, hre, orElseString, ht, hm]
      · simp [hs, hre, orElseString, ht, hm]
      · rcases h with h | ⟨value, h, ht⟩
        · simp [hs, h, orElseString]
        · simp [hs, h, orElseString, ht]
  · rw [hr]
    simp
  · rw [hm]
    simp

/-- Witness for C9 (amended): the sample state, whose request is answered by the sample
response, and the same state answered by `{ success: false, error: 42 }`. -/
theorem handleProcess_outcome_witness :
    (handleProcess sampleBackend sampleReadyState).1.results = some sampleResponse ∧
    (handleProcess sampleBackend sampleReadyState).1.processing = false ∧
    (handleProcess numericErrorBackend sampleReadyState).1.error
      = "Processing failed: " ++ "42" :=
  ⟨(((handleProcess_outcome sampleBackend sampleReadyState sampleTxtFile rfl
      (by decide)).1 sampleResponse rfl).1).2 rfl,
   ((handleProcess_outcome sampleBackend sampleReadyState sampleTxtFile rfl
      (by decide)).1 sampleResponse rfl).2.2,
   (((handleProcess_outcome numericErrorBackend sampleReadyState sampleTxtFile rfl
      (by decide)).1 _ rfl).2.1 rfl).2.2.1 (.num (.int 42)) "42" rfl rfl rfl⟩

/-! ## `handleTextEdit`: the held response -/

theorem applyTextEdits_results (edits : List String) (s : AppState) (r : PipelineResponse)
    (hr : s.results = some r) :
    (applyTextEdits edits s).results
      = some { r with final_text := (edits.getLast?.map some).getD r.final_text } := by
  induction edits generalizing s r with
  | nil => simp [applyTextEdits, hr]
  | cons t rest ih =>
    have hstep : (handleTextEdit t s).results = some { r with final_text := some t } := by
      simp [handleTextEdit, hr]
    have h := ih (handleTextEdit t s) { r with final_text := some t } hstep
    simp only [applyTextEdits, List.foldl_cons] at h ⊢
    rw [h]
    cases rest with
    | nil => simp
    | cons u rest2 =>
      have hl := List.getLast?_eq_getLast (u :: rest2) (List.cons_ne_nil u rest2)
      simp [List.getLast?_cons_cons, hl]

/-- C7, as written, fails: after a successful `handleProcess` whose response obeys the rule
for `final_text`, one `handleTextEdit` call leaves a `results` value whose `final_text` is
the edited text and no longer the text of the successful AI correction. -/
theorem handleTextEdit_breaks_authoritative :
    sampleResponse.success = true ∧
    sampleResponse.final_text = authoritativeText sampleResponse ∧
    (handleProcess sampleBackend sampleReadyState).1.results = some sampleResponse ∧
    (handleTextEdit "hello there" (handleProcess sampleBackend sampleReadyState).1).results
      = some { sampleResponse with final_text := some "hello there" } ∧
    (some "hello there" : Option String)
      ≠ authoritativeText { sampleResponse with final_text := some "hello there" } := by
  decide

/-- C7, amended: in every state reached from a successful `handleProcess` by a sequence of
`handleTextEdit` calls, `results` is the response with only `final_text` replaced:
`final_text` is the text of the last edit (the response's own `final_text` when there was no
edit), so it equals the authoritative text as long as nothing was edited, and `success`,
`ocr_results`, `combined_result`, `ai_correction` and `settings` are those of the
response. -/
theorem handleTextEdit_keeps_response (request : ApiRequest → ApiOutcome (Option PipelineResponse))
    (s : AppState) (f : JSFile) (r : PipelineResponse) (edits : List String)
    (hf : s.selectedFile = some f) (he : s.processingOptions.engines ≠ [])
    (hr : request (processFile f s.processingOptions.toRequestOptions) = .returned (some r))
    (hs : r.success = true) :
    (applyTextEdits edits (handleProcess request s).1).results
      = some { r with final_text := (edits.getLast?.map some).getD r.final_text } ∧
    (r.final_text = authoritativeText r →
      (applyTextEdits [] (handleProcess request s).1).results.map (fun x => x.final_text)
        = some (authoritativeText r)) := by
  have h0 : (handleProcess request s).1.results = some r := by
    rw [handleProcess_submitted request s f hf he, hr]
    simp [hs]
  refine ⟨applyTextEdits_results edits _ r h0, fun hrule => ?_⟩
  rw [applyTextEdits_results [] _ r h0]
  simp [hrule]

/-- Witness for C7 (amended): the sample response, edited twice. -/
theorem handleTextEdit_keeps_response_witness :
    (applyTextEdits ["a", "b"] (handleProcess sampleBackend sampleReadyState).1).results
      = some { sampleResponse with
          final_text := ((["a", "b"] : List String).getLast?.map some).getD
            sampleResponse.final_text } ∧
    (sampleResponse.final_text = authoritativeText sampleResponse →
      (applyTextEdits [] (handleProcess sampleBackend sampleReadyState).1).results.map
          (fun x => x.final_text)
        = some (authoritativeText sampleResponse)) :=
  handleTextEdit_keeps_response sampleBackend sampleReadyState sampleTxtFile sampleResponse
    ["a", "b"] rfl (by decide) rfl rfl

/-! ## `handleSaveResults`: the exported record -/

/-- C8, as written, fails: the `final_text` of `resultsData` is not exported. Two results
that differ in `final_text` (and in nothing but `final_text` and `error`) give the same
record, whose `final_text` is the text argument. -/
theorem handleSaveResults_drops_final_text :
    sampleResponse.final_text ≠ some "edited" ∧
    handleSaveResults "2024-01-01T00:00:00.000Z" (some sampleTxtFile) "edited" sampleResponse
      = handleSaveResults "2024-01-01T00:00:00.000Z" (some sampleTxtFile) "edited"
          { sampleResponse with final_text := none, error := some (.str "warning") } ∧
    (handleSaveResults "2024-01-01T00:00:00.000Z" (some sampleTxtFile) "edited"
      sampleResponse).final_text = "edited" := by
  decide

/-- C8, amended: the record built by `handleSaveResults` has `ocr_results`, `ai_correction`
and `combined_result` equal to the same-named fields of `resultsData`, `processing_settings`
equal to `resultsData.settings`, `final_text` equal to the text argument and `filename`
equal to the selected file's name; these four fields of `resultsData` are exported unaltered
(results that give the same record agree on them), while its `success` flag, its own
`final_text` and its `error` are not exported. -/
theorem handleSaveResults_verbatim (now : String) (selectedFile : Option JSFile)
    (text : String) (resultsData : PipelineResponse) :
    (handleSaveResults now selectedFile text resultsData).ocr_results
      = resultsData.ocr_results ∧
    (handleSaveResults now selectedFile text resultsData).ai_correction
      = resultsData.ai_correction ∧
    (handleSaveResults now selectedFile text resultsData).combined_result
      = resultsData.combined_result ∧
    (handleSaveResults now selectedFile text resultsData).processing_settings
      = resultsData.settings ∧
    (handleSaveResults now selectedFile text resultsData).final_text = text ∧
    (∀ f, selectedFile = some f →
      (handleSaveResults now selectedFile text resultsData).filename = some f.name) ∧
    (∀ other : PipelineResponse,
      handleSaveResults now selectedFile text other
        = handleSaveResults now selectedFile text resultsData →
      other.ocr_results = resultsData.ocr_results ∧
      other.ai_correction = resultsData.ai_correction ∧
      other.combined_result = resultsData.combined_result ∧
      other.settings = resultsData.settings) ∧
    (∀ (b : Bool) (t : Option String) (e : Option Json),
      handleSaveResults now selectedFile text
          { resultsData with success := b, final_text := t, error := e }
        = handleSaveResults now selectedFile text resultsData) := by
  refine ⟨rfl, rfl, rfl, rfl, rfl, fun f hf => by simp [handleSaveResults, hf],
    fun other h => ?_, fun b t e => rfl⟩
  simp only [handleSaveResults, SaveData.mk.injEq, true_and] at h
  exact ⟨h.2.1, h.2.2.1, h.2.2.2, h.1⟩

/-- Witness for C8 (amended): the sample response saved with an edited text. -/
theorem handleSaveResults_verbatim_witness :
    (handleSaveResults "2024-01-01T00:00:00.000Z" (some sampleTxtFile) "edited"
      sampleResponse).filename = some "scan.txt" ∧
    sampleResponse.combined_result = sampleResponse.combined_result :=
  ⟨(handleSaveResults_verbatim "2024-01-01T00:00:00.000Z" (some sampleTxtFile) "edited"
      sampleResponse).2.2.2.2.2.1 sampleTxtFile rfl,
   ((handleSaveResults_verbatim "2024-01-01T00:00:00.000Z" (some sampleTxtFile) "edited"
      sampleResponse).2.2.2.2.2.2.1 sampleResponse rfl).2.2.1⟩

/-! ## `initializeSystem` -/

/-- C10: for every successful engine-availability response with engine list `E` and flag
`a`, `initializeSystem` sets `availableEngines = E`, `aiAvailable = a`, `systemStatus =
'ready'`, `processingOptions.engines = [E[0]]` when `E` is non-empty and `[]` when it is
empty, and `processingOptions.aiCorrection = a`, leaving every other option field unchanged;
hence every selected engine is an available engine and AI correction is requested only if it
is available. -/
theorem initializeSystem_success (response : EnginesResponse) (s : AppState)
    (hs : response.success = true) :
    (initializeSystem (.returned response) s).availableEngines = response.engines ∧
    (initializeSystem (.returned response) s).aiAvailable
      = response.ai_correction_available ∧
    (initializeSystem (.returned response) s).systemStatus = "ready" ∧
    (∀ e rest, response.engines = e :: rest →
      (initializeSystem (.returned response) s).processingOptions.engines = [e]) ∧
    (response.engines = [] →
      (initializeSystem (.returned response) s).processingOptions.engines = []) ∧
    (initializeSystem (.returned response) s).processingOptions
      = { s.processingOptions with
          engines := (initializeSystem (.returned response) s).processingOptions.engines
          aiCorrection := response.ai_correction_available } ∧
    (∀ e ∈ (initializeSystem (.returned response) s).processingOptions.engines,
      e ∈ (initializeSystem (.returned response) s).availableEngines) ∧
    ((initializeSystem (.returned response) s).processingOptions.aiCorrection = true →
      (initializeSystem (.returned response) s).aiAvailable = true) := by
  obtain ⟨success, engines, available⟩ := response
  simp only at hs
  subst hs
  cases engines with
  | nil => simp [initializeSystem]
  | cons e rest => simp [initializeSystem]

/-- Witness for C10: the initial state receives two engines and no AI correction. -/
theorem initializeSystem_success_witness :
    (initializeSystem (.returned sampleEngines) initialAppState).availableEngines
      = ["tesseract", "easyocr"] ∧
    (initializeSystem (.returned sampleEngines) initialAppState).systemStatus = "ready" ∧
    (initializeSystem (.returned sampleEngines) initialAppState).processingOptions.engines
      = ["tesseract"] :=
  ⟨(initializeSystem_success sampleEngines initialAppState rfl).1,
   (initializeSystem_success sampleEngines initialAppState rfl).2.2.1,
   (initializeSystem_success sampleEngines initialAppState rfl).2.2.2.1
      "tesseract" ["easyocr"] rfl⟩

/-! ## `request`: the response -/

/-- C11, evaluated at the failing input: a response that is not ok and whose body is the
JSON value `null` makes `request` fail with the `TypeError` of reading `null.error`, not
with 'HTTP error! status: 500', although the body has no `error` field. -/
theorem request_null_body :
    APIService.request nullBodyFetch "/ocr/process" {}
      = .threw "Cannot read properties of null (reading 'error')" ∧
    APIService.request nullBodyFetch "/ocr/process" {}
      ≠ .threw "HTTP error! status: 500" := by
  refine ⟨rfl, ?_⟩
  have h : APIService.request nullBodyFetch "/ocr/process" {}
      = .threw "Cannot read properties of null (reading 'error')" := rfl
  rw [h]
  intro hc
  injection hc with hc
  revert hc
  decide

/-- Apart from the body `null`, `request` behaves as described: an ok response yields what
`response.json()` yields; a response that is not ok never yields a value, and the thrown
message is the non-empty string `error` of an object body, and 'HTTP error! status: ' with
the status when the body is not JSON or is a value other than `null` without an `error`
property. -/
theorem request_response (fetch : String → FetchConfig → ApiOutcome FetchResponse)
    (endpoint : String) (options : RequestInit) (response : FetchResponse)
    (hfetch : fetch (API_BASE_URL ++ endpoint) (requestConfig options) = .returned response) :
    (response.ok = true → APIService.request fetch endpoint options = response.json) ∧
    (response.ok = false →
      (∀ fields e, response.json = .returned (.obj fields) →
        fields.lookup "error" = some (.str e) → e ≠ "" →
        APIService.request fetch endpoint options = .threw e) ∧
      (∀ m, response.json = .threw m →
        APIService.request fetch endpoint options
          = .threw ("HTTP error! status: " ++ toString response.status)) ∧
      (∀ data, response.json = .returned data → data.getError = .ok none →
        APIService.request fetch endpoint options
          = .threw ("HTTP error! status: " ++ toString response.status)) ∧
      (∀ value, APIService.request fetch endpoint options ≠ .returned value)) := by
  refine ⟨fun hok => ?_, fun hok => ⟨fun fields e hj he hne => ?_, fun m hj => ?_,
    fun data hj hg => ?_, fun value => ?_⟩⟩
  · simp [APIService.request, hfetch, hok]
  · simp [APIService.request, hfetch, hok, hj, Json.getError, he, errorMessage, Json.truthy,
      hne, Json.toJSString]
  · simp [APIService.request, hfetch, hok, hj, Json.getError, errorMessage]
  · simp [APIService.request, hfetch, hok, hj, hg, errorMessage]
  · simp only [APIService.request, hfetch, hok]
    cases response.json with
    | returned data => cases hg : data.getError <;> simp
    | threw m => simp [Json.getError]

/-- An instance of `request_response`: status 404 with the body `{"error": "No file"}`. -/
theorem request_response_example :
    APIService.request
      (fun _ _ => .returned
        { ok := false, status := 404, json := .returned (.obj [("error", .str "No file")]) })
      "/ocr/process" {} = .threw "No file" :=
  ((request_response _ "/ocr/process" {} _ rfl).2 rfl).1 [("error", .str "No file")] "No file"
    rfl rfl (by decide)

/-! ## `request`: the headers -/

theorem Headers.not_mem_delete (h : Headers) (key value : String) :
    (key, value) ∉ h.delete key := by
  simp [Headers.delete]

theorem requestConfig_formData (options : RequestInit) (fd : FormData)
    (hbody : options.body = some (.formData fd)) :
    (requestConfig options).headers
      = Headers.delete
          (match options.headers with
            | some h => h
            | none => [("Content-Type", "application/json")])
          "Content-Type" := by
  obtain ⟨method, headers, body⟩ := options
  simp only at hbody
  subst hbody
  cases method <;> cases headers <;> simp [requestConfig, Headers.spread]

theorem requestConfig_plain (options : RequestInit)
    (hbody : ∀ fd, options.body ≠ some (.formData fd)) :
    (requestConfig options).headers
      = match options.headers with
        | some h => h
        | none => [("Content-Type", "application/json")] := by
  obtain ⟨method, headers, body⟩ := options
  cases body with
  | none => cases method <;> cases headers <;> simp [requestConfig, Headers.spread]
  | some b =>
    cases b with
    | formData fd => exact absurd rfl (hbody fd)
    | jsonText payload =>
      cases method <;> cases headers <;> simp [requestConfig, Headers.spread]

/-- C12: whenever the body of a call of `request` is a `FormData` (in particular for every
`processFile` call), the headers passed to `fetch` have no 'Content-Type' entry; for a call
without a `FormData` body and without custom headers (`getEngines`, `correctText`,
`getSuggestions`, `healthCheck`) they are exactly 'Content-Type': 'application/json'. -/
theorem requestConfig_contentType :
    (∀ (options : RequestInit) (fd : FormData), options.body = some (.formData fd) →
      ∀ value, ("Content-Type", value) ∉ (requestConfig options).headers) ∧
    (∀ (f : JSFile) (o : RequestOptions) (value : String),
      ("Content-Type", value) ∉ (requestConfig (processFile f o).toRequestInit).headers) ∧
    (∀ options : RequestInit, (∀ fd, options.body ≠ some (.formData fd)) →
      options.headers = none →
      (requestConfig options).headers = [("Content-Type", "application/json")]) ∧
    (requestConfig getEnginesRequest.2).headers = [("Content-Type", "application/json")] ∧
    (∀ text language context,
      (requestConfig (correctTextRequest text language context).2).headers
        = [("Content-Type", "application/json")]) ∧
    (∀ text language,
      (requestConfig (getSuggestionsRequest text language).2).headers
        = [("Content-Type", "application/json")]) ∧
    (requestConfig healthCheckRequest.2).headers = [("Content-Type", "application/json")] := by
  refine ⟨fun options fd hbody value => ?_, fun f o value => ?_, fun options hbody hh => ?_,
    rfl, fun _ _ _ => rfl, fun _ _ => rfl, rfl⟩
  · rw [requestConfig_formData options fd hbody]
    exact Headers.not_mem_delete _ _ _
  · rw [requestConfig_formData _ (processFile f o).body rfl]
    exact Headers.not_mem_delete _ _ _
  · rw [requestConfig_plain options hbody, hh]

/-- Witness for C12: a form upload that brings its own 'Content-Type' header, and a call
with a JSON body and no headers. -/
theorem requestConfig_contentType_witness :
    ("Content-Type", "multipart/form-data") ∉
      (requestConfig
        { headers := some [("Content-Type", "multipart/form-data"), ("X-Trace", "1")]
          body := some (.formData [("file", .file sampleTxtFile)]) }).headers ∧
    (requestConfig { method := some "POST", body := some (.jsonText .null) }).headers
      = [("Content-Type", "application/json")] :=
  ⟨requestConfig_contentType.1 _ [("file", .file sampleTxtFile)] rfl "multipart/form-data",
   requestConfig_contentType.2.2.1 { method := some "POST", body := some (.jsonText .null) }
    (fun fd h => by simp at h) rfl⟩

/-- C14, evaluated at the failing input: for options without a body whose headers object
names only 'Authorization', the merge computed first holds both the default 'Content-Type'
and the caller's header, but the headers passed to `fetch` are the caller's object alone,
without 'Content-Type'. -/
theorem requestConfig_headers_replaced :
    Headers.spread [("Content-Type", "application/json")]
        (sampleHeaderOptions.headers.getD [])
      = [("Content-Type", "application/json"), ("Authorization", "Bearer token")] ∧
    (requestConfig sampleHeaderOptions).headers = [("Authorization", "Bearer token")] ∧
    ("Content-Type", "application/json") ∉ (requestConfig sampleHeaderOptions).headers ∧
    (requestConfig sampleHeaderOptions).headers.get "Content-Type" = none := by
  decide

/-- Whenever `options` has a `headers` object and no `FormData` body, the headers passed to
`fetch` are that object as it is: its own 'Content-Type' is kept, the default is not added. -/
theorem requestConfig_custom_headers (options : RequestInit) (h : Headers)
    (hbody : ∀ fd, options.body ≠ some (.formData fd)) (hh : options.headers = some h) :
    (requestConfig options).headers = h := by
  rw [requestConfig_plain options hbody, hh]

/-! ## The file-type effect -/

theorem splitOnChar_no_sep (sep : Char) (cur l : List Char) (h : sep ∉ l) :
    splitOnChar sep cur l = [cur.reverse ++ l] := by
  induction l generalizing cur with
  | nil => simp [splitOnChar]
  | cons c cs ih =>
    have hc : c ≠ sep := fun e => h (e ▸ List.mem_cons_self _ _)
    have hcs : sep ∉ cs := fun m => h (List.mem_cons_of_mem _ m)
    simp [splitOnChar, hc, ih (c :: cur) hcs]

theorem splitOnChar_ne_nil (sep : Char) (cur l : List Char) : splitOnChar sep cur l ≠ [] := by
  induction l generalizing cur with
  | nil => simp [splitOnChar]
  | cons c cs ih =>
    by_cases hc : c = sep
    · simp [splitOnChar, hc]
    · simpa [splitOnChar, hc] using ih (c :: cur)

theorem getLast?_cons_of_ne_nil {α : Type} (a : α) (l : List α) (h : l ≠ []) :
    (a :: l).getLast? = l.getLast? := by
  cases l with
  | nil => exact absurd rfl h
  | cons b rest => exact List.getLast?_cons_cons

theorem splitOnChar_getLast (sep : Char) (cur pre post : List Char) (h : sep ∉ post) :
    (splitOnChar sep cur (pre ++ sep :: post)).getLast? = some post := by
  induction pre generalizing cur with
  | nil =>
    simp [splitOnChar, splitOnChar_no_sep sep [] post h]
  | cons c pre ih =>
    by_cases hc : c = sep
    · simp only [List.cons_append, splitOnChar, hc, if_true]
      rw [getLast?_cons_of_ne_nil _ _ (splitOnChar_ne_nil _ _ _)]
      exact ih []
    · simp only [List.cons_append, splitOnChar, hc, if_false]
      exact ih (c :: cur)

theorem fileTypeEffect_of_last (toLowerCase : String → String) (s : AppState) (f : JSFile)
    (last : List Char) (hf : s.selectedFile = some f)
    (hlast : (splitOnChar '.' [] f.name.toList).getLast? = some last) :
    fileTypeEffect toLowerCase s
      = { s with processingOptions :=
          { s.processingOptions with fileType := some (toLowerCase (String.mk last)) } } := by
  simp only [fileTypeEffect, hf, hlast]

/-- C13: for every selected file with name `n`, the file-type effect sets `fileType` to the
lower-cased part of `n` after its last '.' (the whole lower-cased name when `n` has no '.')
and changes nothing else; the External OCR Settings are offered exactly when that value is
'txt'. -/
theorem fileTypeEffect_extension (toLowerCase : String → String) (s : AppState) (f : JSFile)
    (hf : s.selectedFile = some f) :
    (∀ pre post : List Char, f.name.toList = pre ++ '.' :: post → '.' ∉ post →
      (fileTypeEffect toLowerCase s).processingOptions.fileType
        = some (toLowerCase (String.mk post))) ∧
    ('.' ∉ f.name.toList →
      (fileTypeEffect toLowerCase s).processingOptions.fileType
        = some (toLowerCase f.name)) ∧
    fileTypeEffect toLowerCase s
      = { s with processingOptions :=
          { s.processingOptions with
            fileType := (fileTypeEffect toLowerCase s).processingOptions.fileType } } ∧
    (externalSettingsShown (fileTypeEffect toLowerCase s).processingOptions = true
      ↔ (fileTypeEffect toLowerCase s).processingOptions.fileType = some "txt") := by
  obtain ⟨last, hlast⟩ : ∃ last, (splitOnChar '.' [] f.name.toList).getLast? = some last := by
    cases h : (splitOnChar '.' [] f.name.toList).getLast? with
    | none => exact absurd (List.getLast?_eq_none_iff.1 h) (splitOnChar_ne_nil _ _ _)
    | some l => exact ⟨l, rfl⟩
  rw [fileTypeEffect_of_last toLowerCase s f last hf hlast]
  refine ⟨fun pre post hn hpost => ?_, fun hn => ?_, rfl, ?_⟩
  · rw [hn, splitOnChar_getLast '.' [] pre post hpost] at hlast
    cases hlast
    rfl
  · rw [splitOnChar_no_sep '.' [] f.name.toList hn] at hlast
    simp only [List.reverse_nil, List.nil_append, List.getLast?_singleton,
      Option.some.injEq] at hlast
    subst hlast
    rfl
  · simp [externalSettingsShown]

/-- Witness for C13: the file 'Report.final.TXT' gets the file type 'txt'. -/
theorem fileTypeEffect_extension_witness :
    (fileTypeEffect asciiToLowerCase sampleUpperCaseState).processingOptions.fileType
      = some "txt" :=
  ((fileTypeEffect_extension asciiToLowerCase sampleUpperCaseState
    { name := "Report.final.TXT", content := "" } rfl).1
    "Report.final".toList "TXT".toList (by decide) (by decide)).trans (by decide)

/-! ## `handleTextEdit`: frame -/

/-- C15: for non-null results `r` and every string, `handleTextEdit` yields a results value
whose `final_text` is that string and whose `success`, `ocr_results`, `combined_result`,
`ai_correction` and `settings` (and `error`) are those of `r`; null results stay null; no
other state cell changes. -/
theorem handleTextEdit_frame (newText : String) (s : AppState) :
    (∀ r, s.results = some r →
      ∃ r', (handleTextEdit newText s).results = some r' ∧
        r'.final_text = some newText ∧
        r'.success = r.success ∧
        r'.ocr_results = r.ocr_results ∧
        r'.combined_result = r.combined_result ∧
        r'.ai_correction = r.ai_correction ∧
        r'.settings = r.settings ∧
        r'.error = r.error) ∧
    (s.results = none → (handleTextEdit newText s).results = none) ∧
    handleTextEdit newText s = { s with results := (handleTextEdit newText s).results } := by
  refine ⟨fun r hr => ⟨{ r with final_text := some newText }, ?_, rfl, rfl, rfl, rfl, rfl, rfl,
    rfl⟩, fun hr => ?_, ?_⟩
  · simp [handleTextEdit, hr]
  · simp [handleTextEdit, hr]
  · rcases s with ⟨_, _, _, _, _ | r, _, _, _⟩ <;> rfl

/-- Witness for C15: the sample response held by the state is edited. -/
theorem handleTextEdit_frame_witness :
    ∃ r', (handleTextEdit "new text"
        { sampleReadyState with results := some sampleResponse }).results = some r' ∧
      r'.final_text = some "new text" ∧
      r'.success = sampleResponse.success ∧
      r'.ocr_results = sampleResponse.ocr_results ∧
      r'.combined_result = sampleResponse.combined_result ∧
      r'.ai_correction = sampleResponse.ai_correction ∧
      r'.settings = sampleResponse.settings ∧
      r'.error = sampleResponse.error :=
  (handleTextEdit_frame "new text"
    { sampleReadyState with results := some sampleResponse }).1 sampleResponse rfl

/-! ## The confidence badge -/

theorem JSNumber.ge_iff (negative : Bool) (s : Nat) (n : Int) (k : Int) (q : ℚ)
    (hq : (JSNumber.finite negative s n).toRat? = some q) :
    (JSNumber.finite negative s n).ge k = true ↔ (k : ℚ) ≤ q := by
  simp only [JSNumber.toRat?, Option.some.injEq] at hq
  subst hq
  simp only [JSNumber.ge]
  have hcast : (if negative = true then -(s : ℚ) else (s : ℚ))
      = (((if negative = true then -(s : Int) else (s : Int)) : Int) : ℚ) := by
    cases negative <;> simp
  rw [hcast]
  generalize (if negative = true then -(s : Int) else (s : Int)) = signed
  generalize n - ((decimalDigits s).length : Int) = e
  by_cases he : 0 ≤ e
  · obtain ⟨m, rfl⟩ := Int.eq_ofNat_of_zero_le he
    simp only [he, if_true, Int.toNat_ofNat, decide_eq_true_eq, zpow_natCast]
    constructor
    · intro h
      exact_mod_cast h
    · intro h
      exact_mod_cast h
  · obtain ⟨m, hm⟩ : ∃ m : ℕ, -e = (m : Int) := Int.eq_ofNat_of_zero_le (by omega)
    have he' : e = -(m : Int) := by omega
    subst he'
    simp only [he, if_false, neg_neg, Int.toNat_ofNat, decide_eq_true_eq, zpow_neg,
      zpow_natCast]
    have hpos : (0 : ℚ) < 10 ^ m := by positivity
    rw [← div_eq_mul_inv, le_div_iff₀ hpos]
    constructor
    · intro h
      exact_mod_cast h
    · intro h
      exact_mod_cast h

theorem JSNumber.toRat?_int (i : Int) : (JSNumber.int i).toRat? = some (i : ℚ) := by
  simp only [JSNumber.int, JSNumber.toRat?, sub_self, zpow_zero, mul_one, Option.some.injEq]
  by_cases h : i < 0
  · simp only [h, decide_True, if_true]
    rw [Nat.cast_natAbs, abs_of_neg h]
    simp
  · simp only [h, decide_False]
    rw [Nat.cast_natAbs, abs_of_nonneg (le_of_not_lt h)]
    simp

theorem getConfidenceColor_thresholds (c : JSNumber) (q : ℚ) (hq : c.toRat? = some q) :
    (getConfidenceColor c = "bg-green-100 text-green-800" ↔ 90 ≤ q) ∧
    (getConfidenceColor c = "bg-yellow-100 text-yellow-800" ↔ 70 ≤ q ∧ q < 90) ∧
    (getConfidenceColor c = "bg-red-100 text-red-800" ↔ q < 70) := by
  have hgy : ("bg-green-100 text-green-800" : String) ≠ "bg-yellow-100 text-yellow-800" := by
    decide
  have hgr : ("bg-green-100 text-green-800" : String) ≠ "bg-red-100 text-red-800" := by
    decide
  have hyr : ("bg-yellow-100 text-yellow-800" : String) ≠ "bg-red-100 text-red-800" := by
    decide
  cases c with
  | nan => simp [JSNumber.toRat?] at hq
  | infinity negative => simp [JSNumber.toRat?] at hq
  | finite negative s n =>
    have h90 := JSNumber.ge_iff negative s n 90 q hq
    have h70 := JSNumber.ge_iff negative s n 70 q hq
    simp only [Int.cast_ofNat] at h90 h70
    by_cases c90 : (90 : ℚ) ≤ q
    · have c70 : (70 : ℚ) ≤ q := le_trans (by norm_num) c90
      have g90 := h90.2 c90
      refine ⟨?_, ?_, ?_⟩
      · simp [getConfidenceColor, g90, c90]
      · simp [getConfidenceColor, g90, hgy, c90]
      · simp [getConfidenceColor, g90, hgr, c70]
    · have g90 : (JSNumber.finite negative s n).ge 90 = false := by
        cases hg : (JSNumber.finite negative s n).ge 90 with
        | false => rfl
        | true => exact absurd (h90.1 hg) c90
      by_cases c70 : (70 : ℚ) ≤ q
      · have g70 := h70.2 c70
        refine ⟨?_, ?_, ?_⟩
        · simp [getConfidenceColor, g90, g70, hgy.symm, c90]
        · simp [getConfidenceColor, g90, g70, c70, lt_of_not_ge c90]
        · simp [getConfidenceColor, g90, g70, hyr, c70]
      · have g70 : (JSNumber.finite negative s n).ge 70 = false := by
          cases hg : (JSNumber.finite negative s n).ge 70 with
          | false => rfl
          | true => exact absurd (h70.1 hg) c70
        refine ⟨?_, ?_, ?_⟩
        · simp [getConfidenceColor, g90, g70, hgr.symm, c90]
        · simp [getConfidenceColor, g90, g70, hyr.symm, c70]
        · simp [getConfidenceColor, g90, g70, lt_of_not_ge c70]

/-- C16: `getConfidenceColor` returns exactly one of the three classes: for every finite
confidence, whole or fractional, with value `q`, green iff `q ≥ 90`, yellow iff
`70 ≤ q < 90`, red iff `q < 70` (in particular for every integer); `+Infinity` is green and
`-Infinity` red; `getConfidenceIcon` agrees with it for every number: the alert icon goes
with red and only with red, the check icon with yellow or green and only with them. -/
theorem confidence_color_icon (c : JSNumber) (i : Int) :
    (∀ q : ℚ, c.toRat? = some q →
      (getConfidenceColor c = "bg-green-100 text-green-800" ↔ 90 ≤ q) ∧
      (getConfidenceColor c = "bg-yellow-100 text-yellow-800" ↔ 70 ≤ q ∧ q < 90) ∧
      (getConfidenceColor c = "bg-red-100 text-red-800" ↔ q < 70)) ∧
    (getConfidenceColor (.int i) = "bg-green-100 text-green-800" ↔ 90 ≤ i) ∧
    (getConfidenceColor (.int i) = "bg-yellow-100 text-yellow-800" ↔ 70 ≤ i ∧ i < 90) ∧
    (getConfidenceColor (.int i) = "bg-red-100 text-red-800" ↔ i < 70) ∧
    getConfidenceColor (.infinity false) = "bg-green-100 text-green-800" ∧
    getConfidenceColor (.infinity true) = "bg-red-100 text-red-800" ∧
    (getConfidenceColor c = "bg-green-100 text-green-800" ∨
      getConfidenceColor c = "bg-yellow-100 text-yellow-800" ∨
      getConfidenceColor c = "bg-red-100 text-red-800") ∧
    (getConfidenceIcon c = .AlertCircle ↔ getConfidenceColor c = "bg-red-100 text-red-800") ∧
    (getConfidenceIcon c = .CheckCircle ↔
      (getConfidenceColor c = "bg-yellow-100 text-yellow-800" ∨
        getConfidenceColor c = "bg-green-100 text-green-800")) := by
  have hgr : ("bg-green-100 text-green-800" : String) ≠ "bg-red-100 text-red-800" := by
    decide
  have hyr : ("bg-yellow-100 text-yellow-800" : String) ≠ "bg-red-100 text-red-800" := by
    decide
  have hint := getConfidenceColor_thresholds (.int i) (i : ℚ) (JSNumber.toRat?_int i)
  have hmono : c.ge 90 = true → c.ge 70 = true := by
    cases c with
    | nan => simp [JSNumber.ge]
    | infinity negative => simp [JSNumber.ge]
    | finite negative s n =>
      intro h
      have hq : (JSNumber.finite negative s n).toRat? = some
          ((if negative then -(s : ℚ) else (s : ℚ))
            * (10 : ℚ) ^ (n - (decimalDigits s).length)) := rfl
      have h90 := (JSNumber.ge_iff negative s n 90 _ hq).1 h
      refine (JSNumber.ge_iff negative s n 70 _ hq).2 (le_trans ?_ h90)
      norm_num
  refine ⟨fun q hq => getConfidenceColor_thresholds c q hq, ?_, ?_, ?_, by decide, by decide,
    ?_, ?_, ?_⟩
  · rw [hint.1]
    exact_mod_cast Iff.rfl
  · rw [hint.2.1]
    constructor
    · intro h
      exact ⟨by exact_mod_cast h.1, by exact_mod_cast h.2⟩
    · intro h
      exact ⟨by exact_mod_cast h.1, by exact_mod_cast h.2⟩
  · rw [hint.2.2]
    exact_mod_cast Iff.rfl
  · cases h90 : c.ge 90 <;> cases h70 : c.ge 70 <;> simp [getConfidenceColor, h90, h70]
  · cases h90 : c.ge 90 <;> cases h70 : c.ge 70 <;>
      simp [getConfidenceColor, getConfidenceIcon, h90, h70, hgr, hyr]
    exact absurd (hmono h90) (by simp [h70])
  · cases h90 : c.ge 90 <;> cases h70 : c.ge 70 <;>
      simp [getConfidenceColor, getConfidenceIcon, h90, h70, hgr.symm, hyr.symm]
    exact absurd (hmono h90) (by simp [h70])

/-- Witness for C16: the fractional confidences 89.5 and 69.5 are yellow and red, 90 is
green. -/
theorem confidence_color_icon_witness :
    getConfidenceColor (.finite false 895 2) = "bg-yellow-100 text-yellow-800" ∧
    getConfidenceColor (.finite false 695 2) = "bg-red-100 text-red-800" ∧
    getConfidenceColor (.int 90) = "bg-green-100 text-green-800" :=
  ⟨(((confidence_color_icon (.finite false 895 2) 0).1 (895 / 10)
      (by
        have h : (decimalDigits 895).length = 3 := by decide
        simp only [JSNumber.toRat?, h]
        norm_num)).2.1).2 ⟨by norm_num, by norm_num⟩,
   (((confidence_color_icon (.finite false 695 2) 0).1 (695 / 10)
      (by
        have h : (decimalDigits 695).length = 3 := by decide
        simp only [JSNumber.toRat?, h]
        norm_num)).2.2).2 (by norm_num),
   ((confidence_color_icon .nan 90).2.1).2 (le_refl 90)⟩

end OCREnhancer
